import Mathlib

/-!
Verification of the hex editor's core (the `HexEditor` Yew component in
`src/main.rs`): the byte buffer, the virtualized-window computation and the
search/navigation subsystem. The component state and its `update` reducer are
embedded as executable Lean definitions; `u8` bytes are modelled as `Nat`
values below 256, `f64` pixel quantities as exact rationals.
-/

namespace HexEd

/-- `BYTES_PER_ROW` from `src/main.rs`: bytes rendered per table row. -/
def BYTES_PER_ROW : Nat := 16

/-- `ROW_HEIGHT` from `src/main.rs`: the `f64` constant `29.6`, modelled as the
exact rational `296/10`. -/
def ROW_HEIGHT : ℚ := 296 / 10

/-- `OVERSCAN_ROWS` from `src/main.rs`. -/
def OVERSCAN_ROWS : Nat := 10

/-- `enum SearchMode` from `src/main.rs`. -/
inductive SearchMode where
  | Hex
  | Ascii
deriving DecidableEq

/-- The state of `struct HexEditor` in `src/main.rs`. Bytes (`u8`) are `Nat`
values `< 256`; `f64` pixel quantities are `ℚ`; the `scroll_container_ref`
`NodeRef` is omitted (it is a DOM handle carrying no model state). -/
structure HexEditor where
  file_name : String
  file_data : List Nat
  error : Option String
  scroll_top : ℚ
  container_height : ℚ
  search_term : String
  search_mode : SearchMode
  search_bytes : List Nat
  search_results : List Nat
  current_match_index : Option Nat
  search_status : String
deriving DecidableEq

/-- `HexEditor::create` from `src/main.rs`. -/
def createState : HexEditor where
  file_name := "no file loaded"
  file_data := []
  error := none
  scroll_top := 0
  container_height := 500
  search_term := ""
  search_mode := SearchMode.Ascii
  search_bytes := []
  search_results := []
  current_match_index := none
  search_status := ""

/-- UTF-8 encoding of a single character: the byte sequence Rust's
`str::as_bytes` stores for it, as a list of byte values. -/
def utf8EncodeChar (c : Char) : List Nat :=
  let v := c.toNat
  if v < 0x80 then [v]
  else if v < 0x800 then [0xC0 + v / 0x40, 0x80 + v % 0x40]
  else if v < 0x10000 then
    [0xE0 + v / 0x1000, 0x80 + v / 0x40 % 0x40, 0x80 + v % 0x40]
  else
    [0xF0 + v / 0x40000, 0x80 + v / 0x1000 % 0x40, 0x80 + v / 0x40 % 0x40, 0x80 + v % 0x40]

/-- UTF-8 byte sequence of a character list. -/
def utf8Bytes : List Char → List Nat
  | [] => []
  | c :: cs => utf8EncodeChar c ++ utf8Bytes cs

/-- The bytes of a Rust `String` (`String::as_bytes`, i.e. its UTF-8
encoding). -/
def strBytes (s : String) : List Nat := utf8Bytes s.data

/-- Rust's `char::is_whitespace` (the Unicode `White_Space` property). -/
def rustIsWhitespace (c : Char) : Bool :=
  let n := c.toNat
  (0x09 ≤ n && n ≤ 0x0D) || n == 0x20 || n == 0x85 || n == 0xA0 || n == 0x1680 ||
  (0x2000 ≤ n && n ≤ 0x200A) || n == 0x2028 || n == 0x2029 || n == 0x202F ||
  n == 0x205F || n == 0x3000

/-- The whitespace-stripped character list of the query:
`self.search_term.chars().filter(|c| !c.is_whitespace())` in
`Msg::ExecuteSearch`. -/
def cleanedChars (s : String) : List Char :=
  s.data.filter (fun c => !(rustIsWhitespace c))

/-- Hex digit value of a byte, as in the `hex` crate's decoder:
`0-9`, `a-f`, `A-F`. -/
def hexVal? (b : Nat) : Option Nat :=
  if 0x41 ≤ b && b ≤ 0x46 then some (b - 0x41 + 10)
  else if 0x61 ≤ b && b ≤ 0x66 then some (b - 0x61 + 10)
  else if 0x30 ≤ b && b ≤ 0x39 then some (b - 0x30)
  else none

/-- Decode a byte list as consecutive hex-digit pairs; `none` on a trailing
single byte or on any non-hex byte. -/
def hexPairs : List Nat → Option (List Nat)
  | [] => some []
  | [_] => none
  | hi :: lo :: rest =>
    match hexVal? hi, hexVal? lo, hexPairs rest with
    | some h, some l, some t => some ((h * 16 + l) :: t)
    | _, _, _ => none

/-- `hex::decode` on a byte sequence: fails on odd input length or on any
non-hex byte. -/
def hexDecode (bs : List Nat) : Option (List Nat) :=
  if bs.length % 2 = 1 then none else hexPairs bs

/-- The pattern-decoding step of `Msg::ExecuteSearch`: ASCII mode takes the
query's raw bytes (`self.search_term.as_bytes().to_vec()`); HEX mode strips
whitespace from the query and runs `hex::decode` on what remains. -/
def decodeSearchBytes (mode : SearchMode) (term : String) : Option (List Nat) :=
  match mode with
  | SearchMode.Ascii => some (strBytes term)
  | SearchMode.Hex => hexDecode (utf8Bytes (cleanedChars term))

/-- The scan in `Msg::ExecuteSearch`:
`self.file_data.windows(k).enumerate().filter_map(..)` — every starting offset
whose length-`k` window equals the pattern, in ascending order. -/
def findMatches (data pat : List Nat) : List Nat :=
  (List.range (data.length + 1 - pat.length)).filter
    (fun i => (data.drop i).take pat.length == pat)

/-- Rust `char::to_digit(16)`, written over code points: digits `0-9` are
code points 48-57, `a-f` are 97-102, `A-F` are 65-70. -/
def hexDigitVal? (c : Char) : Option Nat :=
  let n := c.toNat
  if 48 ≤ n && n ≤ 57 then some (n - 48)
  else if 97 ≤ n && n ≤ 102 then some (n - 87)
  else if 65 ≤ n && n ≤ 70 then some (n - 55)
  else none

/-- The digit-accumulation loop of `u8::from_str_radix(_, 16)`: fails on a
non-digit character or when the accumulated value leaves `u8` range. -/
def parseHexDigits : List Char → Nat → Option Nat
  | [], acc => some acc
  | c :: cs, acc =>
    match hexDigitVal? c with
    | none => none
    | some d => if acc * 16 + d ≤ 255 then parseHexDigits cs (acc * 16 + d) else none

/-- `u8::from_str_radix(s, 16)`: an optional leading `+`, then at least one
base-16 digit, with the value within `u8` range. A leading `-` is not accepted
for an unsigned type and falls through as an invalid digit. -/
def u8FromStrRadix16 (s : String) : Option Nat :=
  match s.data with
  | [] => none
  | ['+'] => none
  | '+' :: rest => parseHexDigits rest 0
  | cs => parseHexDigits cs 0

/-- The component messages from `src/main.rs` that can touch model state.
`Msg::LoadFile` only spawns the async file read and `Msg::SaveFile` only
performs the browser download; neither mutates any state field, so they are
omitted. `Msg::Scrolled` carries the scroll position read from the DOM event
target. -/
inductive Msg where
  | FileLoaded : String → List Nat → Msg
  | FileLoadError : String → Msg
  | UpdateByte : Nat → String → Msg
  | Scrolled : ℚ → Msg
  | UpdateSearchTerm : String → Msg
  | UpdateSearchMode : SearchMode → Msg
  | ExecuteSearch : Msg
  | FindNext : Msg
  | FindPrevious : Msg

/-- `HexEditor::jump_to_match`: records the requested match index when it is a
valid index into `search_results`; the DOM scroll it also performs writes to
the scroll container element, not to any model field. -/
def jumpToMatch (st : HexEditor) (resultIndex : Nat) : HexEditor :=
  match st.search_results[resultIndex]? with
  | some _ => { st with current_match_index := some resultIndex }
  | none => st

/-- `HexEditor::update` from `src/main.rs`: the state transition for each
message, paired with the `bool` it returns (the rerender flag, which
`Msg::UpdateByte` also uses as its success signal). -/
def update (st : HexEditor) (msg : Msg) : HexEditor × Bool :=
  match msg with
  | Msg.FileLoaded name data =>
    ({ st with file_name := name, file_data := data, error := none, scroll_top := 0,
               search_results := [], current_match_index := none, search_status := "" },
     true)
  | Msg.FileLoadError errMsg =>
    ({ st with error := some ("Error loading file: " ++ errMsg),
               file_data := [], file_name := "no file loaded" }, true)
  | Msg.UpdateByte index hexValue =>
    if index < st.file_data.length then
      match u8FromStrRadix16 hexValue with
      | some newByte => ({ st with file_data := st.file_data.set index newByte }, true)
      | none => (st, false)
    else
      (st, false)
  | Msg.Scrolled top => ({ st with scroll_top := top }, true)
  | Msg.UpdateSearchTerm term => ({ st with search_term := term }, true)
  | Msg.UpdateSearchMode mode => ({ st with search_mode := mode }, true)
  | Msg.ExecuteSearch =>
    let st0 := { st with search_results := ([] : List Nat),
                         current_match_index := (none : Option Nat) }
    match decodeSearchBytes st.search_mode st.search_term with
    | none => ({ st0 with search_status := "Invalid Hex sequence." }, true)
    | some searchBytes =>
      if searchBytes.isEmpty then
        ({ st0 with search_status := "" }, true)
      else
        let st1 := { st0 with search_bytes := searchBytes,
                              search_results := findMatches st.file_data searchBytes }
        if st1.search_results.isEmpty then
          ({ st1 with search_status := "Not found." }, true)
        else
          let st2 := { st1 with search_status :=
            "Found " ++ toString st1.search_results.length ++ " match(es)." }
          (jumpToMatch st2 0, true)
  | Msg.FindNext =>
    if st.search_results.isEmpty then (st, true)
    else
      let nextIndex :=
        match st.current_match_index with
        | none => 0
        | some i => (i + 1) % st.search_results.length
      (jumpToMatch st nextIndex, true)
  | Msg.FindPrevious =>
    if st.search_results.isEmpty then (st, true)
    else
      let total := st.search_results.length
      let prevIndex :=
        match st.current_match_index with
        | none => total - 1
        | some i => (i + total - 1) % total
      (jumpToMatch st prevIndex, true)

/-- The virtualized-window quantities computed in `HexEditor::view`
(`src/main.rs`, the `total_rows` … `visible_data_slice` block). `byteRange` is
`some (startByte, endByte)` exactly when the rendered slice is non-empty. -/
structure Window where
  totalRows : Nat
  totalHeight : ℚ
  firstVisibleRow : Nat
  numVisibleRows : Nat
  startRow : Nat
  endRow : Nat
  byteRange : Option (Nat × Nat)
  translateY : ℚ
deriving DecidableEq

/-- The window computation of `HexEditor::view`, with the component's `f64`
arithmetic modelled exactly over `ℚ` (`Rat.floor`/`Rat.ceil` are mathematical
floor and ceiling; `saturating_sub` is truncated `Nat` subtraction, and the
`as usize` casts of nonnegative values are `Int.toNat`). -/
def computeWindow (scrollTop containerHeight : ℚ) (totalLength : Nat) : Window :=
  let totalRows := (Rat.ceil ((totalLength : ℚ) / (BYTES_PER_ROW : ℚ))).toNat
  let firstVisibleRow := (Rat.floor (scrollTop / ROW_HEIGHT)).toNat
  let numVisibleRows := (Rat.ceil (containerHeight / ROW_HEIGHT)).toNat
  let startRow := firstVisibleRow - OVERSCAN_ROWS / 2
  let endRow := min (firstVisibleRow + numVisibleRows + OVERSCAN_ROWS / 2) totalRows
  { totalRows := totalRows
    totalHeight := (totalRows : ℚ) * ROW_HEIGHT
    firstVisibleRow := firstVisibleRow
    numVisibleRows := numVisibleRows
    startRow := startRow
    endRow := endRow
    byteRange :=
      if totalLength = 0 || endRow ≤ startRow then none
      else some (startRow * BYTES_PER_ROW, min (endRow * BYTES_PER_ROW) totalLength)
    translateY := (startRow : ℚ) * ROW_HEIGHT }

/-- A state holding an active search, used to exercise file loading. -/
def loadedSample : HexEditor :=
  { createState with search_bytes := [65], search_results := [0],
                     current_match_index := some 0 }

/-- Buffer `"aaa"` with ASCII query `"aa"`. -/
def aaSample : HexEditor :=
  { createState with search_term := "aa", file_data := [97, 97, 97] }

/-- Buffer `[0x41,0x42,0x41,0x42]` with ASCII query `"AB"`. -/
def abSample : HexEditor :=
  { createState with search_term := "AB", file_data := [0x41, 0x42, 0x41, 0x42] }

/-- A non-ASCII one-character query in ASCII mode. -/
def eAcuteSample : HexEditor := { createState with search_term := "é" }

/-- An odd-length query in HEX mode. -/
def oddHexSample : HexEditor :=
  { createState with search_term := "4", search_mode := SearchMode.Hex,
                     file_data := [1, 2, 3] }

/-- Two matches with the cursor on the second one. -/
def navSample : HexEditor :=
  { createState with search_results := [0, 2], current_match_index := some 1 }

/-- A one-byte buffer for byte-edit witnesses. -/
def oneByteSample : HexEditor := { createState with file_data := [0] }

/-- `jump_to_match` with a valid result index only records that index. -/
theorem jumpToMatch_eq (st : HexEditor) (i : Nat) (h : i < st.search_results.length) :
    jumpToMatch st i = { st with current_match_index := some i } := by
  unfold jumpToMatch
  rw [List.getElem?_eq_getElem h]

/-- Membership in the scan result: exactly the offsets where the window of
pattern length equals the pattern. -/
theorem mem_findMatches (data pat : List Nat) (hne : pat ≠ []) (i : Nat) :
    i ∈ findMatches data pat ↔
      i + pat.length ≤ data.length ∧ (data.drop i).take pat.length = pat := by
  have hk : 0 < pat.length := List.length_pos.mpr hne
  simp only [findMatches, List.mem_filter, List.mem_range, beq_iff_eq]
  constructor
  · rintro ⟨h1, h2⟩
    exact ⟨by omega, h2⟩
  · rintro ⟨h1, h2⟩
    exact ⟨by omega, h2⟩

/-- The scan result is strictly ascending. -/
theorem findMatches_pairwise (data pat : List Nat) :
    List.Pairwise (· < ·) (findMatches data pat) :=
  (List.pairwise_lt_range _).sublist (List.filter_sublist _)

/-- How `Msg::ExecuteSearch` behaves once the pattern decoded to a non-empty
byte list: the matches are the scan result, the pattern is stored, and the
cursor jumps to the first match exactly when one exists. -/
theorem executeSearch_eq (st : HexEditor) (pat : List Nat)
    (hdec : decodeSearchBytes st.search_mode st.search_term = some pat)
    (hne : pat ≠ []) :
    (update st Msg.ExecuteSearch).1.search_results = findMatches st.file_data pat ∧
    (update st Msg.ExecuteSearch).1.search_bytes = pat ∧
    (findMatches st.file_data pat ≠ [] →
      (update st Msg.ExecuteSearch).1.current_match_index = some 0) ∧
    (findMatches st.file_data pat = [] →
      (update st Msg.ExecuteSearch).1.current_match_index = none) := by
  have hisEmpty : pat.isEmpty = false := by
    cases pat
    · exact absurd rfl hne
    · rfl
  by_cases hres : findMatches st.file_data pat = []
  · simp [update, hdec, hisEmpty, hres]
  · have hlen : 0 < (findMatches st.file_data pat).length := List.length_pos.mpr hres
    simp only [update, hdec, hisEmpty, Bool.false_eq_true, if_false]
    simp only [List.isEmpty_eq_true, hres, if_false]
    rw [jumpToMatch_eq _ 0 (by simpa using hlen)]
    simp [hres]

/-- Byte values above `0x66` (`'f'`) are not hex digits. -/
theorem hexVal?_eq_none_of_gt {b : Nat} (h : 0x66 < b) : hexVal? b = none := by
  unfold hexVal?
  split
  · next hc =>
    simp only [Bool.and_eq_true, decide_eq_true_eq] at hc
    omega
  · split
    · next hc =>
      simp only [Bool.and_eq_true, decide_eq_true_eq] at hc
      omega
    · split
      · next hc =>
        simp only [Bool.and_eq_true, decide_eq_true_eq] at hc
        omega
      · rfl

/-- A byte that is a hex digit is at most `0x66` (so in particular ASCII). -/
theorem le_of_hexVal?_eq_some {b d : Nat} (h : hexVal? b = some d) : b ≤ 0x66 := by
  by_contra hb
  rw [hexVal?_eq_none_of_gt (by omega)] at h
  exact Option.noConfusion h

/-- An ASCII character is its own one-byte UTF-8 encoding. -/
theorem utf8EncodeChar_ascii {c : Char} (h : c.toNat < 128) :
    utf8EncodeChar c = [c.toNat] := by
  unfold utf8EncodeChar
  rw [if_pos h]

/-- A non-ASCII character's UTF-8 encoding contains a byte that is not a hex
digit (its lead byte is at least `0xC0`). -/
theorem utf8EncodeChar_bad_byte {c : Char} (h : 128 ≤ c.toNat) :
    ∃ b ∈ utf8EncodeChar c, hexVal? b = none := by
  simp only [utf8EncodeChar]
  rw [if_neg (by omega)]
  by_cases h2 : c.toNat < 2048
  · rw [if_pos h2]
    exact ⟨192 + c.toNat / 64, List.mem_cons_self _ _, hexVal?_eq_none_of_gt (by omega)⟩
  · rw [if_neg h2]
    by_cases h3 : c.toNat < 65536
    · rw [if_pos h3]
      exact ⟨224 + c.toNat / 4096, List.mem_cons_self _ _, hexVal?_eq_none_of_gt (by omega)⟩
    · rw [if_neg h3]
      exact ⟨240 + c.toNat / 262144, List.mem_cons_self _ _, hexVal?_eq_none_of_gt (by omega)⟩

/-- Every byte of a member character's encoding is a byte of the encoded
list. -/
theorem mem_utf8Bytes {cs : List Char} {c : Char} (hc : c ∈ cs) {b : Nat}
    (hb : b ∈ utf8EncodeChar c) : b ∈ utf8Bytes cs := by
  induction cs with
  | nil => cases hc
  | cons d ds ih =>
    rw [utf8Bytes]
    rcases List.mem_cons.mp hc with rfl | h
    · exact List.mem_append_left _ hb
    · exact List.mem_append_right _ (ih h)

/-- For an all-ASCII character list the UTF-8 encoding has one byte per
character. -/
theorem utf8Bytes_length_ascii {cs : List Char} (h : ∀ c ∈ cs, c.toNat < 128) :
    (utf8Bytes cs).length = cs.length := by
  induction cs with
  | nil => rfl
  | cons d ds ih =>
    rw [utf8Bytes, List.length_append,
      utf8EncodeChar_ascii (h d (List.mem_cons_self _ _)),
      ih (fun c hc => h c (List.mem_cons_of_mem _ hc))]
    simp [Nat.add_comm]

/-- For an all-ASCII character list the UTF-8 encoding is the identity byte
mapping, one byte per character. -/
theorem utf8Bytes_ascii_map {cs : List Char} (h : ∀ c ∈ cs, c.toNat < 128) :
    utf8Bytes cs = cs.map Char.toNat := by
  induction cs with
  | nil => rfl
  | cons d ds ih =>
    rw [utf8Bytes, utf8EncodeChar_ascii (h d (List.mem_cons_self _ _)),
      List.map_cons, ih (fun c hc => h c (List.mem_cons_of_mem _ hc))]
    rfl

/-- Pair decoding fails as soon as some byte is not a hex digit. -/
theorem hexPairs_eq_none_of_mem : ∀ {bs : List Nat} {b : Nat}, b ∈ bs →
    hexVal? b = none → hexPairs bs = none
  | [], b, hb, _ => absurd hb (List.not_mem_nil b)
  | [_], _, _, _ => rfl
  | hi :: lo :: rest, b, hb, hbad => by
    rcases h1 : hexVal? hi with _ | d1
    · simp [hexPairs, h1]
    · rcases h2 : hexVal? lo with _ | d2
      · simp [hexPairs, h1, h2]
      · rcases List.mem_cons.mp hb with rfl | hb2
        · rw [h1] at hbad
          cases hbad
        · rcases List.mem_cons.mp hb2 with rfl | hb3
          · rw [h2] at hbad
            cases hbad
          · have hr : hexPairs rest = none := hexPairs_eq_none_of_mem hb3 hbad
            simp [hexPairs, h1, h2, hr]

/-- An odd-length or non-hex cleaned query makes `hex::decode` on its UTF-8
bytes fail. -/
theorem hexDecode_utf8_none (cs : List Char)
    (h : cs.length % 2 = 1 ∨ ∃ c ∈ cs, hexVal? c.toNat = none) :
    hexDecode (utf8Bytes cs) = none := by
  by_cases hall : ∀ c ∈ cs, ∃ d, hexVal? c.toNat = some d
  · have hlen : (utf8Bytes cs).length = cs.length := by
      apply utf8Bytes_length_ascii
      intro c hc
      obtain ⟨d, hd⟩ := hall c hc
      have := le_of_hexVal?_eq_some hd
      omega
    have hodd : cs.length % 2 = 1 := by
      rcases h with h | ⟨c, hc, hbad⟩
      · exact h
      · obtain ⟨d, hd⟩ := hall c hc
        rw [hd] at hbad
        cases hbad
    unfold hexDecode
    rw [hlen, if_pos hodd]
  · push_neg at hall
    obtain ⟨c, hc, hbad⟩ := hall
    have hbad' : hexVal? c.toNat = none := by
      cases hv : hexVal? c.toNat with
      | none => rfl
      | some d => exact absurd hv (hbad d)
    have hbyte : ∃ b ∈ utf8Bytes cs, hexVal? b = none := by
      by_cases hascii : c.toNat < 128
      · refine ⟨c.toNat, mem_utf8Bytes hc ?_, hbad'⟩
        rw [utf8EncodeChar_ascii hascii]
        exact List.mem_cons_self _ _
      · obtain ⟨b, hbmem, hbnone⟩ := @utf8EncodeChar_bad_byte c (by omega)
        exact ⟨b, mem_utf8Bytes hc hbmem, hbnone⟩
    obtain ⟨b, hbmem, hbnone⟩ := hbyte
    unfold hexDecode
    split
    · rfl
    · exact hexPairs_eq_none_of_mem hbmem hbnone

/-- The `FindPrevious` index formula is decrement-with-wraparound for an
in-range cursor. -/
theorem prev_mod_eq {i n : Nat} (h : i < n) :
    (i + n - 1) % n = if i = 0 then n - 1 else i - 1 := by
  rcases Nat.eq_zero_or_pos i with rfl | hi
  · rw [if_pos rfl]
    have h0 : 0 + n - 1 = n - 1 := by omega
    rw [h0, Nat.mod_eq_of_lt (by omega)]
  · rw [if_neg (by omega)]
    have h2 : i + n - 1 = (i - 1) + n := by omega
    rw [h2, Nat.add_mod_right, Nat.mod_eq_of_lt (by omega)]

/-- The accumulation loop of `u8::from_str_radix` never exceeds `u8::MAX`. -/
theorem parseHexDigits_le : ∀ (cs : List Char) (acc v : Nat), acc ≤ 255 →
    parseHexDigits cs acc = some v → v ≤ 255 := by
  intro cs
  induction cs with
  | nil =>
    intro acc v h hp
    rw [parseHexDigits] at hp
    injection hp with h2
    omega
  | cons c cs ih =>
    intro acc v h hp
    rw [parseHexDigits] at hp
    cases hd : hexDigitVal? c with
    | none =>
      simp only [hd] at hp
      cases hp
    | some d =>
      simp only [hd] at hp
      by_cases hle : acc * 16 + d ≤ 255
      · rw [if_pos hle] at hp
        exact ih _ _ hle hp
      · rw [if_neg hle] at hp
        cases hp

/-- A successful `u8::from_str_radix(_, 16)` stays within `[0, 255]`. -/
theorem u8FromStrRadix16_le {s : String} {v : Nat}
    (h : u8FromStrRadix16 s = some v) : v ≤ 255 := by
  unfold u8FromStrRadix16 at h
  split at h
  · cases h
  · cases h
  · exact parseHexDigits_le _ 0 v (by omega) h
  · exact parseHexDigits_le _ 0 v (by omega) h

/-- **C1**: for every buffer snapshot and every non-empty decoded pattern,
`Msg::ExecuteSearch` stores in `search_results` exactly the starting offsets
`i` (in ascending order, overlapping occurrences included) such that the
pattern's bytes equal the buffer's bytes at `[i, i+len(pattern))`, and when
the match list is non-empty the cursor is set to index 0. -/
theorem executeSearch_matches_spec (st : HexEditor) (pat : List Nat)
    (hdec : decodeSearchBytes st.search_mode st.search_term = some pat)
    (hne : pat ≠ []) :
    List.Pairwise (· < ·) ((update st Msg.ExecuteSearch).1.search_results) ∧
    (∀ i : Nat, i ∈ (update st Msg.ExecuteSearch).1.search_results ↔
      i + pat.length ≤ st.file_data.length ∧
      (st.file_data.drop i).take pat.length = pat) ∧
    ((update st Msg.ExecuteSearch).1.search_results ≠ [] →
      (update st Msg.ExecuteSearch).1.current_match_index = some 0) := by
  obtain ⟨hres, -, hcur, -⟩ := executeSearch_eq st pat hdec hne
  rw [hres]
  exact ⟨findMatches_pairwise _ _, mem_findMatches _ _ hne, hcur⟩

/-- Witness for C1: ASCII pattern `"aa"` against buffer `"aaa"` yields the
overlapping matches `[0, 1]` and the cursor jumps to index 0; ASCII `"AB"`
against `[0x41, 0x42, 0x41, 0x42]` yields `[0, 2]`. -/
theorem executeSearch_matches_witness :
    decodeSearchBytes aaSample.search_mode aaSample.search_term = some [97, 97] ∧
    ([97, 97] : List Nat) ≠ [] ∧
    (update aaSample Msg.ExecuteSearch).1.search_results = [0, 1] ∧
    (List.Pairwise (· < ·) ((update aaSample Msg.ExecuteSearch).1.search_results) ∧
     (∀ i : Nat, i ∈ (update aaSample Msg.ExecuteSearch).1.search_results ↔
       i + ([97, 97] : List Nat).length ≤ aaSample.file_data.length ∧
       (aaSample.file_data.drop i).take ([97, 97] : List Nat).length = [97, 97]) ∧
     ((update aaSample Msg.ExecuteSearch).1.search_results ≠ [] →
       (update aaSample Msg.ExecuteSearch).1.current_match_index = some 0)) ∧
    (update abSample Msg.ExecuteSearch).1.search_results = [0, 2] :=
  ⟨by decide, by decide, by decide,
   executeSearch_matches_spec aaSample [97, 97] (by decide) (by decide),
   by decide⟩

/-- **C2** is refuted as stated: in ASCII mode the pattern is the UTF-8
encoding of the query, not one byte per character — the one-character query
`"é"` yields a two-byte pattern instead of its identity byte mapping. -/
theorem asciiSearch_counterexample :
    eAcuteSample.search_mode = SearchMode.Ascii ∧
    eAcuteSample.search_term.data.length = 1 ∧
    ((update eAcuteSample Msg.ExecuteSearch).1.search_bytes).length = 2 ∧
    ¬ ((update eAcuteSample Msg.ExecuteSearch).1.search_bytes
        = eAcuteSample.search_term.data.map Char.toNat) := by decide

/-- **C2** (amended): in ASCII mode the decoded pattern is the UTF-8 byte
encoding of the query (stored in `search_bytes` whenever it is non-empty);
when every character of the query is ASCII this is exactly one byte per
character under the identity byte mapping. -/
theorem asciiSearch_pattern (st : HexEditor)
    (hm : st.search_mode = SearchMode.Ascii)
    (hne : strBytes st.search_term ≠ []) :
    (update st Msg.ExecuteSearch).1.search_bytes = strBytes st.search_term ∧
    ((∀ c ∈ st.search_term.data, c.toNat < 128) →
      strBytes st.search_term = st.search_term.data.map Char.toNat) := by
  have hdec : decodeSearchBytes st.search_mode st.search_term
      = some (strBytes st.search_term) := by
    rw [hm]
    rfl
  exact ⟨(executeSearch_eq st _ hdec hne).2.1, fun h => utf8Bytes_ascii_map h⟩

/-- Witness for the amended C2 at the all-ASCII query `"AB"`. -/
theorem asciiSearch_pattern_witness :
    abSample.search_mode = SearchMode.Ascii ∧
    strBytes abSample.search_term ≠ [] ∧
    ((update abSample Msg.ExecuteSearch).1.search_bytes = strBytes abSample.search_term ∧
     ((∀ c ∈ abSample.search_term.data, c.toNat < 128) →
       strBytes abSample.search_term = abSample.search_term.data.map Char.toNat)) :=
  ⟨rfl, by decide, asciiSearch_pattern abSample rfl (by decide)⟩

/-- **C3**: in HEX mode the query is whitespace-stripped and decoded as hex
digit pairs (so `"41 42"` decodes to the same pattern as ASCII `"AB"`); when
the cleaned text has odd length or contains a non-hex character the search
ends in the invalid-pattern outcome: matches cleared, cursor `None`, the
error status message, and every other field — the buffer included — left
untouched. -/
theorem hexSearch_invalid (st : HexEditor)
    (hm : st.search_mode = SearchMode.Hex)
    (hbad : (cleanedChars st.search_term).length % 2 = 1 ∨
      ∃ c ∈ cleanedChars st.search_term, hexVal? c.toNat = none) :
    decodeSearchBytes SearchMode.Hex "41 42" =
      decodeSearchBytes SearchMode.Ascii "AB" ∧
    update st Msg.ExecuteSearch =
      ({ st with search_results := [], current_match_index := none,
                 search_status := "Invalid Hex sequence." }, true) := by
  have hdec : decodeSearchBytes st.search_mode st.search_term = none := by
    rw [hm]
    exact hexDecode_utf8_none _ hbad
  exact ⟨by decide, by simp [update, hdec]⟩

/-- Witness for C3: the odd-length HEX query `"4"` fails and clears the
matches while the buffer is untouched. -/
theorem hexSearch_invalid_witness :
    oddHexSample.search_mode = SearchMode.Hex ∧
    (cleanedChars oddHexSample.search_term).length % 2 = 1 ∧
    update oddHexSample Msg.ExecuteSearch =
      ({ oddHexSample with search_results := [], current_match_index := none,
                           search_status := "Invalid Hex sequence." }, true) :=
  ⟨rfl, by decide,
   (hexSearch_invalid oddHexSample rfl (Or.inl (by decide))).2⟩

/-- **C4**: `FindNext`/`FindPrevious` leave the state unchanged when no
matches exist; otherwise `FindNext` moves the cursor to 0 from `None` and to
`(i+1) mod len(matches)` from `Some i` (wrapping from the last match to 0),
and `FindPrevious` moves it to `len(matches)-1` from `None` and decrements
with wraparound from 0 to `len(matches)-1` otherwise. -/
theorem findNextPrev_spec (st : HexEditor) :
    (st.search_results = [] →
      (update st Msg.FindNext).1 = st ∧ (update st Msg.FindPrevious).1 = st) ∧
    (st.search_results ≠ [] →
      ((st.current_match_index = none →
        (update st Msg.FindNext).1.current_match_index = some 0 ∧
        (update st Msg.FindPrevious).1.current_match_index =
          some (st.search_results.length - 1)) ∧
       (∀ i : Nat, st.current_match_index = some i →
          i < st.search_results.length →
        (update st Msg.FindNext).1.current_match_index =
          some ((i + 1) % st.search_results.length) ∧
        (update st Msg.FindPrevious).1.current_match_index =
          some (if i = 0 then st.search_results.length - 1 else i - 1)))) := by
  constructor
  · intro h
    constructor <;> simp [update, h]
  · intro h
    have hlen : 0 < st.search_results.length := List.length_pos.mpr h
    have hisEmpty : st.search_results.isEmpty = false := by
      cases he : st.search_results
      · exact absurd he h
      · rfl
    constructor
    · intro hc
      constructor
      · simp only [update, hisEmpty, Bool.false_eq_true, if_false, hc]
        rw [jumpToMatch_eq st 0 hlen]
      · simp only [update, hisEmpty, Bool.false_eq_true, if_false, hc]
        rw [jumpToMatch_eq st _ (by omega)]
    · intro i hc hi
      constructor
      · simp only [update, hisEmpty, Bool.false_eq_true, if_false, hc]
        rw [jumpToMatch_eq st _ (Nat.mod_lt _ hlen)]
      · simp only [update, hisEmpty, Bool.false_eq_true, if_false, hc]
        rw [jumpToMatch_eq st _ (Nat.mod_lt _ hlen), prev_mod_eq hi]

/-- Witness for C4 at matches `[0, 2]` with the cursor on index 1 (the last
match): `FindNext` wraps to index 0 and `FindPrevious` decrements to 0. -/
theorem findNextPrev_witness :
    (navSample.search_results ≠ [] ∧ navSample.current_match_index = some 1 ∧
      1 < navSample.search_results.length) ∧
    ((update navSample Msg.FindNext).1.current_match_index = some 0 ∧
     (update navSample Msg.FindPrevious).1.current_match_index = some 0) := by
  refine ⟨⟨by decide, rfl, by decide⟩, ?_⟩
  have h := ((findNextPrev_spec navSample).2 (by decide)).2 1 rfl (by decide)
  exact ⟨h.1, h.2⟩

/-- **C5**: for an in-range index, `Msg::UpdateByte` parses the text as a
base-16 unsigned integer in `[0, 255]` (case-insensitive); on parse failure
the state is unchanged and failure (`false`) is reported, and on success
exactly the byte at `index` is replaced, with no other field changed, and
success (`true`) is reported. -/
theorem updateByte_spec (st : HexEditor) (index : Nat) (hexText : String)
    (hin : index < st.file_data.length) :
    (u8FromStrRadix16 hexText = none →
      update st (Msg.UpdateByte index hexText) = (st, false)) ∧
    (∀ v : Nat, u8FromStrRadix16 hexText = some v →
      v ≤ 255 ∧
      update st (Msg.UpdateByte index hexText) =
        ({ st with file_data := st.file_data.set index v }, true)) := by
  constructor
  · intro h
    simp [update, hin, h]
  · intro v h
    exact ⟨u8FromStrRadix16_le h, by simp [update, hin, h]⟩

/-- Witness for C5 on a one-byte buffer: `"ZZ"` fails and leaves the byte
unchanged, lowercase `"ff"` sets it to 255. -/
theorem updateByte_witness :
    0 < oneByteSample.file_data.length ∧
    u8FromStrRadix16 "ZZ" = none ∧
    update oneByteSample (Msg.UpdateByte 0 "ZZ") = (oneByteSample, false) ∧
    u8FromStrRadix16 "ff" = some 255 ∧
    (255 ≤ 255 ∧
      update oneByteSample (Msg.UpdateByte 0 "ff") =
        ({ oneByteSample with
            file_data := oneByteSample.file_data.set 0 255 }, true)) :=
  ⟨by decide, by decide,
   (updateByte_spec oneByteSample 0 "ZZ" (by decide)).1 (by decide),
   by decide,
   (updateByte_spec oneByteSample 0 "ff" (by decide)).2 255 (by decide)⟩

/-- **C8** is refuted as stated: completing a file load does not reset the
decoded pattern — `search_bytes` survives `Msg::FileLoaded` unchanged. -/
theorem fileLoaded_counterexample :
    loadedSample.search_bytes ≠ [] ∧
    (update loadedSample (Msg.FileLoaded "new.bin" [1, 2])).1.search_bytes =
      loadedSample.search_bytes ∧
    ¬ ((update loadedSample (Msg.FileLoaded "new.bin" [1, 2])).1.search_bytes
        = []) := by decide

/-- **C8** (amended): `Msg::FileLoaded` wholesale-replaces the buffer bytes
and name, clears the error, resets the scroll position, resets `matches` and
the cursor to empty/`None` and blanks the status — while the previously
decoded pattern `search_bytes` is left unchanged. -/
theorem fileLoaded_spec (st : HexEditor) (name : String) (data : List Nat) :
    update st (Msg.FileLoaded name data) =
      ({ st with file_name := name, file_data := data, error := none,
                 scroll_top := 0, search_results := [],
                 current_match_index := none, search_status := "" }, true) := rfl

/-- **C9**: `Msg::FileLoadError` empties the buffer, resets the name to the
"no file loaded" sentinel and records the error, but leaves
`search_results`, `current_match_index`, `search_bytes` and `search_status`
unchanged — so every stored match offset is at least the (now zero) buffer
length. -/
theorem fileLoadError_spec (st : HexEditor) (msg : String) :
    update st (Msg.FileLoadError msg) =
      ({ st with error := some ("Error loading file: " ++ msg),
                 file_data := [], file_name := "no file loaded" }, true) ∧
    (∀ m ∈ st.search_results,
      (update st (Msg.FileLoadError msg)).1.file_data.length ≤ m) :=
  ⟨rfl, fun m _ => Nat.zero_le m⟩

/-- Witness for C9: a failed load on a state with match offset 0 stored. -/
theorem fileLoadError_witness :
    update loadedSample (Msg.FileLoadError "x") =
      ({ loadedSample with error := some ("Error loading file: " ++ "x"),
                           file_data := [],
                           file_name := "no file loaded" }, true) ∧
    (0 ∈ loadedSample.search_results ∧
      (update loadedSample (Msg.FileLoadError "x")).1.file_data.length ≤ 0) :=
  ⟨(fileLoadError_spec loadedSample "x").1, by decide,
   (fileLoadError_spec loadedSample "x").2 0 (by decide)⟩

/-- **C10**: `Msg::UpdateByte` at an out-of-range index is a silent no-op —
the state is returned unchanged with `false`, whether or not the text is
valid hex. -/
theorem updateByte_outOfRange (st : HexEditor) (index : Nat) (text : String)
    (h : st.file_data.length ≤ index) :
    update st (Msg.UpdateByte index text) = (st, false) := by
  simp only [update]
  rw [if_neg (by omega)]

/-- Witness for C10 on the empty initial buffer, with valid hex text. -/
theorem updateByte_outOfRange_witness :
    createState.file_data.length ≤ 0 ∧
    update createState (Msg.UpdateByte 0 "41") = (createState, false) :=
  ⟨by decide, updateByte_outOfRange createState 0 "41" (by decide)⟩

/-- A clipped row-aligned end offset is either still 16-aligned or equals the
clip bound. -/
theorem min_mul16_mod (a b : Nat) :
    (min (a * 16) b) % 16 = 0 ∨ min (a * 16) b = b := by
  rcases Nat.le_total (a * 16) b with h | h
  · left
    rw [Nat.min_eq_left h]
    exact Nat.mul_mod_left _ _
  · right
    exact Nat.min_eq_right h

section

/- The Batteries rational-arithmetic primitives are `irreducible`; make them
locally reducible so `decide` can evaluate `computeWindow` on concrete
inputs. -/
attribute [local semireducible] Rat.mul Rat.inv Rat.add Rat.sub

/-- **C6** is refuted as stated: with the scroll position past the end of the
content (`scrollOffset = 1000` on a one-row file), `totalRows > 0` and both
claim-side nonnegativity bounds hold, yet
`firstVisibleRow = 33 > 1 = endRow`. -/
theorem computeWindow_rowRange_counterexample :
    0 ≤ (1000 : ℚ) ∧ 0 ≤ (0 : ℚ) ∧
    0 < (computeWindow 1000 0 16).totalRows ∧
    ¬ ((computeWindow 1000 0 16).startRow ≤
          (computeWindow 1000 0 16).firstVisibleRow ∧
       (computeWindow 1000 0 16).firstVisibleRow ≤
          (computeWindow 1000 0 16).endRow) := by
  constructor
  · decide
  constructor
  · decide
  constructor
  · decide
  · decide

/-- **C6** (amended): for every `scrollOffset ≥ 0`, `viewportHeight ≥ 0` and
`totalLength` with `totalRows > 0`, `computeWindow` satisfies
`startRow ≤ firstVisibleRow` always, `firstVisibleRow ≤ endRow` whenever the
scroll position is not past the content (`firstVisibleRow ≤ totalRows`), and
`startByte`/`endByte` are multiples of 16 except that `endByte` may be
clipped to `totalLength`. -/
theorem computeWindow_rowRange (scrollTop containerHeight : ℚ) (totalLength : Nat)
    (h1 : 0 ≤ scrollTop) (h2 : 0 ≤ containerHeight)
    (h3 : 0 < (computeWindow scrollTop containerHeight totalLength).totalRows) :
    (computeWindow scrollTop containerHeight totalLength).startRow ≤
      (computeWindow scrollTop containerHeight totalLength).firstVisibleRow ∧
    ((computeWindow scrollTop containerHeight totalLength).firstVisibleRow ≤
        (computeWindow scrollTop containerHeight totalLength).totalRows →
      (computeWindow scrollTop containerHeight totalLength).firstVisibleRow ≤
        (computeWindow scrollTop containerHeight totalLength).endRow) ∧
    (∀ sb eb : Nat,
      (computeWindow scrollTop containerHeight totalLength).byteRange =
        some (sb, eb) →
      sb % 16 = 0 ∧ (eb % 16 = 0 ∨ eb = totalLength)) := by
  simp only [computeWindow, OVERSCAN_ROWS, BYTES_PER_ROW]
  refine ⟨Nat.sub_le _ _, fun h => le_min (by omega) h, fun sb eb hr => ?_⟩
  split at hr
  · cases hr
  · simp only [Option.some.injEq, Prod.mk.injEq] at hr
    obtain ⟨rfl, rfl⟩ := hr
    exact ⟨Nat.mul_mod_left _ _, min_mul16_mod _ totalLength⟩

/-- Witness for the amended C6 at `scrollOffset = 50`, `viewportHeight = 100`,
`totalLength = 100`. -/
theorem computeWindow_rowRange_witness :
    (0 ≤ (50 : ℚ) ∧ 0 ≤ (100 : ℚ) ∧ 0 < (computeWindow 50 100 100).totalRows) ∧
    ((computeWindow 50 100 100).startRow ≤ (computeWindow 50 100 100).firstVisibleRow ∧
     ((computeWindow 50 100 100).firstVisibleRow ≤ (computeWindow 50 100 100).totalRows →
       (computeWindow 50 100 100).firstVisibleRow ≤ (computeWindow 50 100 100).endRow) ∧
     (∀ sb eb : Nat,
       (computeWindow 50 100 100).byteRange = some (sb, eb) →
       sb % 16 = 0 ∧ (eb % 16 = 0 ∨ eb = 100))) :=
  ⟨⟨by decide, by decide, by decide⟩,
   computeWindow_rowRange 50 100 100 (by decide) (by decide) (by decide)⟩

end

/-- **C7**: the row range `computeWindow` requests never exceeds
`visibleRowCount + overscan` rows, for every scroll offset, viewport height
and total length — the rendering cost is bounded independently of file
size. -/
theorem computeWindow_rowCount_bounded
    (scrollTop containerHeight : ℚ) (totalLength : Nat) :
    (computeWindow scrollTop containerHeight totalLength).endRow -
      (computeWindow scrollTop containerHeight totalLength).startRow ≤
    (computeWindow scrollTop containerHeight totalLength).numVisibleRows +
      OVERSCAN_ROWS := by
  simp only [computeWindow, OVERSCAN_ROWS]
  omega

end HexEd
